import Mathlib

/-!
Verification of the vehicle-management rule engine
(`src/backend/src/services/vehicleService.ts`).

The service keeps an in-memory array `vehicles : Vehicle[]`, loaded from a
JSON file, and persists it wholesale (`persist()`, one `fs.writeFileSync`
call) after each successful mutation.  We embed the store as a
`List Vehicle`, thread it explicitly through each operation, and record the
number of `persist()` calls the operation makes in the `writes` field of
`OpOut`.  `Date.now()` and `new Date().toISOString()` inside `createVehicle`
are modelled as explicit parameters `now`/`nowIso`.
-/

namespace VehicleSvc

/-- `type VehicleStatus = 'Available' | 'InUse' | 'Maintenance'`
(`src/backend/src/models/structures.ts`). -/
inductive VehicleStatus where
  | Available
  | InUse
  | Maintenance
deriving DecidableEq, Repr

/-- `interface Vehicle` (`src/backend/src/models/structures.ts`). -/
structure Vehicle where
  id : String
  licensePlate : String
  model : String
  status : VehicleStatus
  createdAt : String
deriving DecidableEq, Repr

/-- `type ServiceErrorCode` (`src/backend/src/models/structures.ts`). -/
inductive ServiceErrorCode where
  | LICENSE_PLATE_REQUIRED
  | MODEL_REQUIRED
  | INVALID_LICENSE_PLATE
  | DUPLICATE_LICENSE_PLATE
  | VEHICLE_NOT_FOUND
  | INVALID_STATUS
  | ILLEGAL_STATUS_TRANSITION
  | MAINTENANCE_CAP_EXCEEDED
  | NOT_ALLOWED_STATUS_FOR_DELETE
  | ADMIN_APPROVAL_REQUIRED
deriving DecidableEq, Repr

/-- `type Result<T> = Ok<T> | Err` with `Err = {ok:false, error:{code,message}}`. -/
inductive Result (α : Type) where
  | ok (data : α)
  | err (code : ServiceErrorCode) (message : String)
deriving DecidableEq, Repr

/-- `true` iff the result is the `Ok` variant (`res.ok === true`). -/
def Result.isOk {α : Type} : Result α → Bool
  | .ok _ => true
  | .err _ _ => false

/-- The error code carried by an `Err` result, if any. -/
def Result.errCode {α : Type} : Result α → Option ServiceErrorCode
  | .ok _ => none
  | .err c _ => some c

/-- The `id` of the vehicle carried by an `Ok` result, if any. -/
def Result.okId : Result Vehicle → Option String
  | .ok v => some v.id
  | .err _ _ => none

/-- Outcome of one service call: the returned `Result`, the contents of the
module-level `vehicles` array afterwards, and how many `persist()`
(i.e. `fs.writeFileSync`) calls were made during the call. -/
structure OpOut (α : Type) where
  res : Result α
  vehicles : List Vehicle
  writes : Nat
deriving DecidableEq, Repr

/-- Characters kept by the regex replace `[^A-Z0-9]` in `normalizePlate`. -/
def plateChar (ch : Char) : Bool :=
  ('A' ≤ ch && ch ≤ 'Z') || ('0' ≤ ch && ch ≤ '9')

/-- `normalizePlate` (vehicleService.ts:15-19): uppercase the string and
remove every character that is not `A`-`Z` or `0`-`9`.  JS
`toUpperCase`/`replace` act per character here; `Char.toUpper` matches
JS uppercasing on the ASCII range, and any character it leaves unchanged
outside `A-Z0-9` is removed by the filter, exactly like the regex. -/
def normalizePlate (p : String) : String :=
  String.mk ((p.data.map Char.toUpper).filter plateChar)

/-- `isValidPlateNorm` (vehicleService.ts:22-24): the normalized plate must
match `^[A-Z0-9]{5,10}$`. -/
def isValidPlateNorm (norm : String) : Bool :=
  (5 ≤ norm.data.length && norm.data.length ≤ 10) && norm.data.all plateChar

/-! ### IEEE-754 model of the maintenance-cap computation

`editVehicleStatus` computes `Math.max(1, Math.floor(total * 0.05))` in
JavaScript numbers (IEEE binary64).  `total` (an array length, hence at most
`2^32 - 1`) converts to a double exactly; the literal `0.05` denotes the
closest double, `c005 / 2^56` with `c005 = 3602879701896397`; and `*` rounds
the exact product `total * c005 / 2^56` to 53 significant bits, to nearest,
ties to even (overflow and subnormals cannot arise on this range).  We model
that rounding exactly, in integer arithmetic: with `N = total * c005` and
`2^L ≤ N < 2^(L+1)`, the product lies in the binade `[2^(L-56), 2^(L-57))`
whose representable doubles are the multiples of `2^(L-108)`, so the
rounded significand is `N / 2^(L-52)` rounded to nearest, ties to even. -/

/-- The integer significand of the IEEE binary64 value of the literal
`0.05`, which is exactly `3602879701896397 / 2^56`. -/
def c005 : ℕ := 3602879701896397

/-- `⌊log₂ n⌋` via explicit fuel (so that the definition is structurally
recursive and reduces inside the kernel). -/
def log2fuel : ℕ → ℕ → ℕ
  | 0, _ => 0
  | f + 1, n => if n ≤ 1 then 0 else log2fuel f (n / 2) + 1

/-- `⌊log₂ n⌋` (0 for `n = 0`). -/
def natLog2 (n : ℕ) : ℕ := log2fuel n n

/-- The rounded 53-bit significand of `N / 2^56` when `2^L ≤ N < 2^(L+1)`:
`N / 2^(L-52)` rounded to nearest, ties to even. -/
def rnSig (N L : ℕ) : ℕ :=
  if 2 * (N % 2 ^ (L - 52)) < 2 ^ (L - 52) then N / 2 ^ (L - 52)
  else if 2 ^ (L - 52) < 2 * (N % 2 ^ (L - 52)) then N / 2 ^ (L - 52) + 1
  else if N / 2 ^ (L - 52) % 2 = 0 then N / 2 ^ (L - 52) else N / 2 ^ (L - 52) + 1

/-- `Math.floor(total * 0.05)` evaluated in IEEE binary64: the exact
product `total * c005 / 2^56` is rounded to 53 significant bits (to
nearest, ties to even), giving `rnSig N L * 2^(L-108)` with `N = total *
c005` and `L = ⌊log₂ N⌋`, and the result is then truncated to an
integer. -/
def floorMul005 (total : ℕ) : ℕ :=
  if total * c005 = 0 then 0
  else if 108 ≤ natLog2 (total * c005) then
    rnSig (total * c005) (natLog2 (total * c005)) * 2 ^ (natLog2 (total * c005) - 108)
  else
    rnSig (total * c005) (natLog2 (total * c005)) / 2 ^ (108 - natLog2 (total * c005))

/-- `vehicles.filter(v => v.status === 'Maintenance').length`
(the `currentMaintenance` count of vehicleService.ts:100). -/
def maintCount (vehicles : List Vehicle) : ℕ :=
  (vehicles.filter (fun v => v.status = VehicleStatus.Maintenance)).length

/-- Replace the first element satisfying `p` by its image under `f`: the
effect of mutating, in place, the object returned by `Array.prototype.find`. -/
def updateFirst {α : Type} (p : α → Bool) (f : α → α) : List α → List α
  | [] => []
  | x :: xs => if p x then f x :: xs else x :: updateFirst p f xs

/-! ### The service operations -/

/-- `createVehicle` (vehicleService.ts:39-66).  `now` is the value of
`Date.now()` and `nowIso` the value of `new Date().toISOString()` observed
by the call. -/
def createVehicle (vehicles : List Vehicle) (licensePlate model : String)
    (now : ℕ) (nowIso : String) : OpOut Vehicle :=
  if licensePlate = "" then
    ⟨.err .LICENSE_PLATE_REQUIRED "licensePlate is required", vehicles, 0⟩
  else if model = "" then
    ⟨.err .MODEL_REQUIRED "model is required", vehicles, 0⟩
  else if ¬ isValidPlateNorm (normalizePlate licensePlate) then
    ⟨.err .INVALID_LICENSE_PLATE
      "Invalid license plate: must be 5–10 alphanumeric characters (A–Z, 0–9)",
      vehicles, 0⟩
  else if vehicles.any (fun v => v.licensePlate == normalizePlate licensePlate) then
    ⟨.err .DUPLICATE_LICENSE_PLATE "A vehicle with this license plate already exists",
      vehicles, 0⟩
  else
    ⟨.ok ⟨"v" ++ toString now, normalizePlate licensePlate, model, .Available, nowIso⟩,
      vehicles ++ [⟨"v" ++ toString now, normalizePlate licensePlate, model, .Available, nowIso⟩],
      1⟩

/-- `listVehicles` (vehicleService.ts:69-71). -/
def listVehicles (vehicles : List Vehicle) : List Vehicle :=
  vehicles

/-- `editVehicleStatus` (vehicleService.ts:74-110). -/
def editVehicleStatus (vehicles : List Vehicle) (licensePlate : String)
    (newStatus : VehicleStatus) : OpOut Vehicle :=
  if newStatus ∉ [VehicleStatus.Available, VehicleStatus.InUse, VehicleStatus.Maintenance] then
    ⟨.err .INVALID_STATUS "Invalid vehicle status", vehicles, 0⟩
  else
    match vehicles.find? (fun v => v.licensePlate == normalizePlate licensePlate) with
    | none => ⟨.err .VEHICLE_NOT_FOUND "Vehicle not found", vehicles, 0⟩
    | some vehicle =>
      if vehicle.status = newStatus then
        ⟨.ok vehicle, vehicles, 0⟩
      else if vehicle.status = .Maintenance ∧ newStatus ≠ .Available then
        ⟨.err .ILLEGAL_STATUS_TRANSITION
          "Illegal status transition from Maintenance. Allowed: Available only",
          vehicles, 0⟩
      else if newStatus = .Maintenance ∧ vehicle.status ≠ .Maintenance ∧
          maintCount vehicles + 1 > Nat.max 1 (floorMul005 vehicles.length) then
        ⟨.err .MAINTENANCE_CAP_EXCEEDED
          ("Maintenance cap exceeded: up to "
            ++ toString (Nat.max 1 (floorMul005 vehicles.length))
            ++ " vehicles (5%) allowed"),
          vehicles, 0⟩
      else
        ⟨.ok { vehicle with status := newStatus },
          updateFirst (fun v => v.licensePlate == normalizePlate licensePlate)
            (fun v => { v with status := newStatus }) vehicles,
          1⟩

/-- `editVehicle` (vehicleService.ts:113-138): edit a vehicle's license
plate by id. -/
def editVehicle (vehicles : List Vehicle) (id newLicensePlate : String) : OpOut Vehicle :=
  match vehicles.find? (fun v => v.id == id) with
  | none => ⟨.err .VEHICLE_NOT_FOUND "Vehicle not found", vehicles, 0⟩
  | some vehicle =>
    if ¬ isValidPlateNorm (normalizePlate newLicensePlate) then
      ⟨.err .INVALID_LICENSE_PLATE
        "Invalid license plate: must be 5–10 alphanumeric characters (A–Z, 0–9)",
        vehicles, 0⟩
    else if normalizePlate newLicensePlate = vehicle.licensePlate then
      ⟨.ok vehicle, vehicles, 0⟩
    else if vehicles.any (fun v =>
        v.licensePlate == normalizePlate newLicensePlate && !(v.id == id)) then
      ⟨.err .DUPLICATE_LICENSE_PLATE "A vehicle with this license plate already exists",
        vehicles, 0⟩
    else
      ⟨.ok { vehicle with licensePlate := normalizePlate newLicensePlate },
        updateFirst (fun v => v.id == id)
          (fun v => { v with licensePlate := normalizePlate newLicensePlate }) vehicles,
        1⟩

/-- `deleteVehicle` (vehicleService.ts:142-156).  The inner `none` branch is
unreachable (`findIndex` only returns a valid index). -/
def deleteVehicle (vehicles : List Vehicle) (id : String) : OpOut String :=
  match vehicles.findIdx? (fun v => v.id == id) with
  | none => ⟨.err .VEHICLE_NOT_FOUND "Vehicle not found", vehicles, 0⟩
  | some index =>
    match vehicles[index]? with
    | none => ⟨.err .VEHICLE_NOT_FOUND "Vehicle not found", vehicles, 0⟩
    | some vehicle =>
      if vehicle.status ≠ .Available then
        ⟨.err .NOT_ALLOWED_STATUS_FOR_DELETE "Only Available vehicles can be deleted",
          vehicles, 0⟩
      else
        ⟨.ok id, vehicles.eraseIdx index, 1⟩

/-- A 20-vehicle all-`Available` fleet (the spec's maintenance-cap
example). -/
def fleet20 : List Vehicle :=
  (List.range 20).map fun i =>
    ⟨toString i, "PLATE" ++ toString i, "m", .Available, "t"⟩

/-! ### Correctness of the binary64 cap computation -/

theorem log2fuel_spec :
    ∀ f n : ℕ, 1 ≤ n → n ≤ f → 2 ^ log2fuel f n ≤ n ∧ n < 2 ^ (log2fuel f n + 1) := by
  intro f
  induction f with
  | zero => intro n h1 h2; omega
  | succ f ih =>
    intro n h1 h2
    by_cases hn : n ≤ 1
    · have hone : n = 1 := by omega
      subst hone
      simp [log2fuel]
    · have hrec := ih (n / 2) (by omega) (by omega)
      rw [log2fuel, if_neg hn]
      rw [pow_succ, pow_succ] at *
      obtain ⟨hl, hr⟩ := hrec
      constructor
      · omega
      · omega

theorem natLog2_spec (n : ℕ) (h : 1 ≤ n) :
    2 ^ natLog2 n ≤ n ∧ n < 2 ^ (natLog2 n + 1) :=
  log2fuel_spec n n h le_rfl

theorem rnSig_ge_div (N L : ℕ) : N / 2 ^ (L - 52) ≤ rnSig N L := by
  unfold rnSig
  split
  · exact le_rfl
  · split
    · omega
    · split <;> omega

theorem rnSig_mul_le (N L : ℕ) :
    2 * (rnSig N L * 2 ^ (L - 52)) ≤ 2 * N + 2 ^ (L - 52) := by
  have hqr : N = N / 2 ^ (L - 52) * 2 ^ (L - 52) + N % 2 ^ (L - 52) := by
    rw [Nat.mul_comm]
    exact (Nat.div_add_mod N (2 ^ (L - 52))).symm
  have hrlt : N % 2 ^ (L - 52) < 2 ^ (L - 52) :=
    Nat.mod_lt _ (Nat.pos_pow_of_pos _ (by norm_num))
  unfold rnSig
  split
  · omega
  · split
    · rw [Nat.add_mul, Nat.one_mul]
      omega
    · split
      · omega
      · rw [Nat.add_mul, Nat.one_mul]
        omega

/-- On the whole range of JavaScript array lengths, the binary64
computation `Math.floor(total * 0.05)` agrees with the exact
`⌊total / 20⌋`. -/
theorem floorMul005_eq_div20 (n : ℕ) (hn : n ≤ 2 ^ 32) : floorMul005 n = n / 20 := by
  rcases Nat.lt_or_ge n 3 with h3 | h3
  · interval_cases n <;> decide
  · have hNpos : n * c005 ≠ 0 := by simp [c005]; omega
    obtain ⟨hL1, hL2⟩ := natLog2_spec (n * c005) (by simp [c005]; omega)
    have hNlb : 2 ^ 53 < n * c005 := by simp only [c005]; omega
    have hNub : n * c005 < 2 ^ 84 := by
      calc n * c005 ≤ 2 ^ 32 * c005 := Nat.mul_le_mul_right _ hn
      _ < 2 ^ 84 := by norm_num [c005]
    have hL53 : 53 ≤ natLog2 (n * c005) := by
      by_contra hc
      push_neg at hc
      have : 2 ^ (natLog2 (n * c005) + 1) ≤ 2 ^ 53 :=
        Nat.pow_le_pow_right (by norm_num) (by omega)
      omega
    have hL83 : natLog2 (n * c005) ≤ 83 := by
      by_contra hc
      push_neg at hc
      have : (2 : ℕ) ^ 84 ≤ 2 ^ natLog2 (n * c005) :=
        Nat.pow_le_pow_right (by norm_num) (by omega)
      omega
    have hd31 : 2 ^ (natLog2 (n * c005) - 52) ≤ 2 ^ 31 :=
      Nat.pow_le_pow_right (by norm_num) (by omega)
    have h56 : 2 ^ (108 - natLog2 (n * c005)) * 2 ^ (natLog2 (n * c005) - 52) = 2 ^ 56 := by
      rw [← pow_add]
      congr 1
      omega
    -- lower bound: n / 20 * 2 ^ (108 - L) ≤ rnSig N L
    have hmN : n / 20 * 2 ^ 56 ≤ n * c005 := by
      calc n / 20 * 2 ^ 56 ≤ n / 20 * (20 * c005) :=
            Nat.mul_le_mul_left _ (by norm_num [c005])
      _ = 20 * (n / 20) * c005 := by ring
      _ ≤ n * c005 := Nat.mul_le_mul_right _ (by omega)
    have hlow : n / 20 * 2 ^ (108 - natLog2 (n * c005)) ≤ rnSig (n * c005) (natLog2 (n * c005)) := by
      refine le_trans ?_ (rnSig_ge_div _ _)
      rw [Nat.le_div_iff_mul_le (Nat.pos_pow_of_pos _ (by norm_num))]
      calc n / 20 * 2 ^ (108 - natLog2 (n * c005)) * 2 ^ (natLog2 (n * c005) - 52)
          = n / 20 * (2 ^ (108 - natLog2 (n * c005)) * 2 ^ (natLog2 (n * c005) - 52)) := by ring
      _ = n / 20 * 2 ^ 56 := by rw [h56]
      _ ≤ n * c005 := hmN
    -- upper bound
    have hkey := rnSig_mul_le (n * c005) (natLog2 (n * c005))
    have hNlt : 2 * (n * c005) + 2 ^ (natLog2 (n * c005) - 52) < (n / 20 + 1) * 2 ^ 57 := by
      simp only [c005] at *
      omega
    have hup2 : rnSig (n * c005) (natLog2 (n * c005)) * 2 ^ (natLog2 (n * c005) - 52)
        < (n / 20 + 1) * 2 ^ 56 := by omega
    have hup : rnSig (n * c005) (natLog2 (n * c005))
        < (n / 20 + 1) * 2 ^ (108 - natLog2 (n * c005)) := by
      have hms : (n / 20 + 1) * 2 ^ 56
          = (n / 20 + 1) * 2 ^ (108 - natLog2 (n * c005)) * 2 ^ (natLog2 (n * c005) - 52) := by
        rw [← h56]
        ring
      rw [hms] at hup2
      exact Nat.lt_of_mul_lt_mul_right hup2
    -- assemble
    rw [floorMul005, if_neg hNpos, if_neg (by omega)]
    have hPpos : 0 < 2 ^ (108 - natLog2 (n * c005)) := Nat.pos_pow_of_pos _ (by norm_num)
    refine Nat.le_antisymm ?_ ((Nat.le_div_iff_mul_le hPpos).2 hlow)
    have hlt : rnSig (n * c005) (natLog2 (n * c005)) / 2 ^ (108 - natLog2 (n * c005))
        < n / 20 + 1 := (Nat.div_lt_iff_lt_mul hPpos).2 hup
    omega

/-! ### Helper lemmas about normalization, `updateFirst` and counting -/

theorem toUpper_eq_of_plateChar (c : Char) (h : plateChar c = true) : c.toUpper = c := by
  unfold plateChar at h
  simp only [Bool.or_eq_true, Bool.and_eq_true, decide_eq_true_eq, Char.le_def,
    UInt32.le_def, BitVec.le_def] at h
  have hA : 'A'.val.toBitVec.toNat = 65 := rfl
  have hZ : 'Z'.val.toBitVec.toNat = 90 := rfl
  have h0 : '0'.val.toBitVec.toNat = 48 := rfl
  have h9 : '9'.val.toBitVec.toNat = 57 := rfl
  rw [hA, hZ, h0, h9] at h
  unfold Char.toUpper
  rw [if_neg]
  have hc : Char.toNat c = c.val.toBitVec.toNat := rfl
  rw [hc]
  omega

theorem filter_map_toUpper_plate (l : List Char) (hl : ∀ c ∈ l, plateChar c = true) :
    (l.map Char.toUpper).filter plateChar = l := by
  induction l with
  | nil => rfl
  | cons c cs ih =>
    have hc := hl c (by simp)
    simp only [List.map_cons, List.filter_cons, toUpper_eq_of_plateChar c hc, hc, if_pos]
    rw [ih (fun x hx => hl x (by simp [hx]))]

theorem mem_normalizePlate_plateChar (p : String) :
    ∀ c ∈ (normalizePlate p).data, plateChar c = true := by
  intro c hc
  exact List.of_mem_filter hc

theorem normalizePlate_idem (p : String) :
    normalizePlate (normalizePlate p) = normalizePlate p := by
  unfold normalizePlate
  exact congrArg String.mk
    (filter_map_toUpper_plate _ (mem_normalizePlate_plateChar p))

theorem normalizePlate_empty : normalizePlate "" = "" := rfl

theorem updateFirst_length {α : Type} (p : α → Bool) (f : α → α) (l : List α) :
    (updateFirst p f l).length = l.length := by
  induction l with
  | nil => rfl
  | cons x xs ih =>
    unfold updateFirst
    split <;> simp [ih]

theorem map_updateFirst_eq {α β : Type} (p : α → Bool) (f : α → α) (g : α → β)
    (hf : ∀ x, g (f x) = g x) (l : List α) :
    (updateFirst p f l).map g = l.map g := by
  induction l with
  | nil => rfl
  | cons x xs ih =>
    unfold updateFirst
    split <;> simp [hf, ih]

theorem countP_updateFirst_le_succ {α : Type} (p : α → Bool) (f : α → α) (q : α → Bool)
    (l : List α) : (updateFirst p f l).countP q ≤ l.countP q + 1 := by
  induction l with
  | nil => simp [updateFirst]
  | cons x xs ih =>
    unfold updateFirst
    split
    · simp only [List.countP_cons]
      split <;> split <;> omega
    · simp only [List.countP_cons]
      omega

theorem countP_updateFirst_of_false {α : Type} (p : α → Bool) (f : α → α) (q : α → Bool)
    (hf : ∀ x, q (f x) = false) (l : List α) :
    (updateFirst p f l).countP q ≤ l.countP q := by
  induction l with
  | nil => simp [updateFirst]
  | cons x xs ih =>
    unfold updateFirst
    split
    · simp [List.countP_cons, hf]
    · simp only [List.countP_cons]
      have := ih
      omega

theorem maintCount_eq_countP (l : List Vehicle) :
    maintCount l = l.countP (fun v => decide (v.status = VehicleStatus.Maintenance)) :=
  (List.countP_eq_length_filter _ _).symm

theorem countP_updateFirst_congr {α : Type} (p : α → Bool) (f : α → α) (q : α → Bool)
    (hf : ∀ x, q (f x) = q x) (l : List α) :
    (updateFirst p f l).countP q = l.countP q := by
  induction l with
  | nil => rfl
  | cons x xs ih =>
    unfold updateFirst
    split
    · simp only [List.countP_cons, hf]
    · simp only [List.countP_cons, ih]

theorem maintCount_append (l₁ l₂ : List Vehicle) :
    maintCount (l₁ ++ l₂) = maintCount l₁ + maintCount l₂ := by
  simp [maintCount, List.filter_append]

theorem status_mem (ns : VehicleStatus) :
    ns ∈ [VehicleStatus.Available, VehicleStatus.InUse, VehicleStatus.Maintenance] := by
  cases ns <;> simp

/-! ### Claim C4 -/

/-- C4: for the vehicle addressed by `plate` (the first store entry whose
plate equals `normalizePlate plate`), if its current status is
`Maintenance`, then `editVehicleStatus` to `InUse` always fails with
`ILLEGAL_STATUS_TRANSITION` and leaves the store unchanged with no write,
while `editVehicleStatus` to `Available` always succeeds (returning the
vehicle with status `Available` and performing one persist), regardless of
fleet size or the number of vehicles in `Maintenance`. -/
theorem c4_maintenance_transitions (st : List Vehicle) (plate : String) (v : Vehicle)
    (hfind : st.find? (fun x => x.licensePlate == normalizePlate plate) = some v)
    (hM : v.status = VehicleStatus.Maintenance) :
    editVehicleStatus st plate .InUse =
      ⟨.err .ILLEGAL_STATUS_TRANSITION
        "Illegal status transition from Maintenance. Allowed: Available only", st, 0⟩ ∧
    (editVehicleStatus st plate .Available).res = .ok { v with status := .Available } ∧
    (editVehicleStatus st plate .Available).writes = 1 := by
  refine ⟨?_, ?_⟩
  · unfold editVehicleStatus
    rw [if_neg (not_not_intro (status_mem .InUse)), hfind]
    dsimp only
    rw [if_neg (by simp [hM]), if_pos ⟨hM, by decide⟩]
  · unfold editVehicleStatus
    rw [if_neg (not_not_intro (status_mem .Available)), hfind]
    dsimp only
    rw [if_neg (by simp [hM]), if_neg (by simp), if_neg (by simp)]
    exact ⟨rfl, rfl⟩

/-- Witness for C4 on a one-vehicle store in `Maintenance`. -/
theorem c4_witness :
    editVehicleStatus [⟨"1", "AAAAA", "m", .Maintenance, "t"⟩] "AAAAA" .InUse =
      ⟨.err .ILLEGAL_STATUS_TRANSITION
        "Illegal status transition from Maintenance. Allowed: Available only",
        [⟨"1", "AAAAA", "m", .Maintenance, "t"⟩], 0⟩ ∧
    (editVehicleStatus [⟨"1", "AAAAA", "m", .Maintenance, "t"⟩] "AAAAA" .Available).res =
      .ok ⟨"1", "AAAAA", "m", .Available, "t"⟩ ∧
    (editVehicleStatus [⟨"1", "AAAAA", "m", .Maintenance, "t"⟩] "AAAAA" .Available).writes = 1 :=
  c4_maintenance_transitions [⟨"1", "AAAAA", "m", .Maintenance, "t"⟩] "AAAAA"
    ⟨"1", "AAAAA", "m", .Maintenance, "t"⟩ (by decide) rfl

/-! ### Claim C6 -/

/-- C6: `deleteVehicle` fails with `VEHICLE_NOT_FOUND` (store untouched, no
write) when no vehicle matches `id`; when the first match is at index `i`,
it succeeds exactly when that vehicle's status is `Available`, in which
case it removes exactly that vehicle (`eraseIdx i`), persists once and
returns the deleted id, and otherwise it fails with
`NOT_ALLOWED_STATUS_FOR_DELETE`, leaving the store untouched with no
write. -/
theorem c6_delete_semantics (st : List Vehicle) (id : String) :
    (st.findIdx? (fun v => v.id == id) = none →
      deleteVehicle st id = ⟨.err .VEHICLE_NOT_FOUND "Vehicle not found", st, 0⟩) ∧
    (∀ i v, st.findIdx? (fun v => v.id == id) = some i → st[i]? = some v →
      (v.status = .Available →
        deleteVehicle st id = ⟨.ok id, st.eraseIdx i, 1⟩) ∧
      (v.status ≠ .Available →
        deleteVehicle st id =
          ⟨.err .NOT_ALLOWED_STATUS_FOR_DELETE "Only Available vehicles can be deleted",
            st, 0⟩)) := by
  constructor
  · intro hnone
    unfold deleteVehicle
    rw [hnone]
  · intro i v hidx hget
    constructor
    · intro hA
      unfold deleteVehicle
      rw [hidx]
      dsimp only
      rw [hget]
      dsimp only
      rw [if_neg (by simp [hA])]
    · intro hA
      unfold deleteVehicle
      rw [hidx]
      dsimp only
      rw [hget]
      dsimp only
      rw [if_pos hA]

/-- Witness for C6: deleting the only (Available) vehicle succeeds. -/
theorem c6_witness :
    deleteVehicle [⟨"1", "AAAAA", "m", .Available, "t"⟩] "1" =
      ⟨.ok "1", [], 1⟩ :=
  ((c6_delete_semantics [⟨"1", "AAAAA", "m", .Available, "t"⟩] "1").2 0
    ⟨"1", "AAAAA", "m", .Available, "t"⟩ (by decide) rfl).1 rfl

theorem isValidPlateNorm_length (norm : String) (h : isValidPlateNorm norm = true) :
    5 ≤ norm.data.length := by
  unfold isValidPlateNorm at h
  simp only [Bool.and_eq_true, decide_eq_true_eq] at h
  exact h.1.1

/-! ### Claim C7 -/

/-- C7: `editVehicle id newPlate` fails `VEHICLE_NOT_FOUND` when no vehicle
matches `id`; otherwise it normalizes and validates `newPlate`, failing
`INVALID_LICENSE_PLATE` on format failure; if the normalized value equals
the vehicle's current plate it succeeds returning the vehicle unchanged
with no write; it fails `DUPLICATE_LICENSE_PLATE` when another vehicle
(different id) holds the normalized plate; otherwise it sets the plate to
the normalized value and persists once.  In particular, on the store
`[{id "1", plate "11AAA11", Available}]`, `editVehicle "1" "11-aaa-11"` is
a successful no-op with no write returning plate `"11AAA11"`. -/
theorem c7_edit_plate_semantics (st : List Vehicle) (id newPlate : String) :
    (st.find? (fun v => v.id == id) = none →
      editVehicle st id newPlate = ⟨.err .VEHICLE_NOT_FOUND "Vehicle not found", st, 0⟩) ∧
    (∀ v, st.find? (fun v => v.id == id) = some v →
      (isValidPlateNorm (normalizePlate newPlate) = false →
        editVehicle st id newPlate =
          ⟨.err .INVALID_LICENSE_PLATE
            "Invalid license plate: must be 5–10 alphanumeric characters (A–Z, 0–9)",
            st, 0⟩) ∧
      (isValidPlateNorm (normalizePlate newPlate) = true →
        (normalizePlate newPlate = v.licensePlate →
          editVehicle st id newPlate = ⟨.ok v, st, 0⟩) ∧
        (normalizePlate newPlate ≠ v.licensePlate →
          (st.any (fun w => w.licensePlate == normalizePlate newPlate && !(w.id == id)) = true →
            editVehicle st id newPlate =
              ⟨.err .DUPLICATE_LICENSE_PLATE
                "A vehicle with this license plate already exists", st, 0⟩) ∧
          (st.any (fun w => w.licensePlate == normalizePlate newPlate && !(w.id == id)) = false →
            editVehicle st id newPlate =
              ⟨.ok { v with licensePlate := normalizePlate newPlate },
                updateFirst (fun w => w.id == id)
                  (fun w => { w with licensePlate := normalizePlate newPlate }) st,
                1⟩)))) ∧
    editVehicle [⟨"1", "11AAA11", "Model-A", .Available, "t"⟩] "1" "11-aaa-11" =
      ⟨.ok ⟨"1", "11AAA11", "Model-A", .Available, "t"⟩,
        [⟨"1", "11AAA11", "Model-A", .Available, "t"⟩], 0⟩ := by
  refine ⟨?_, ?_, by decide⟩
  · intro hnone
    unfold editVehicle
    rw [hnone]
  · intro v hfind
    constructor
    · intro hinv
      unfold editVehicle
      rw [hfind]
      dsimp only
      rw [if_pos (by simp [hinv])]
    · intro hval
      constructor
      · intro hnoop
        unfold editVehicle
        rw [hfind]
        dsimp only
        rw [if_neg (by simp [hval]), if_pos hnoop]
      · intro hne
        constructor
        · intro hdup
          unfold editVehicle
          rw [hfind]
          dsimp only
          rw [if_neg (by simp [hval]), if_neg hne, if_pos hdup]
        · intro hdup
          unfold editVehicle
          rw [hfind]
          dsimp only
          rw [if_neg (by simp [hval]), if_neg hne, if_neg (by simp [hdup])]

/-- Witness for C7: editing the plate of an unknown id fails. -/
theorem c7_witness :
    editVehicle [] "1" "AAAAA" = ⟨.err .VEHICLE_NOT_FOUND "Vehicle not found", [], 0⟩ :=
  (c7_edit_plate_semantics [] "1" "AAAAA").1 rfl

/-! ### Claim C10 -/

/-- C10 (amended): `createVehicle` returns `LICENSE_PLATE_REQUIRED` exactly
when the raw plate is the empty string; and, provided the model argument is
non-empty, every non-empty raw plate whose normalization is shorter than 5
characters yields `INVALID_LICENSE_PLATE` with the store unchanged and no
write.  (The amendment: with an empty model the code returns
`MODEL_REQUIRED` first, see the counterexample.) -/
theorem c10_create_error_amended (st : List Vehicle) (plate model : String)
    (now : ℕ) (iso : String) :
    ((createVehicle st plate model now iso).res.errCode = some .LICENSE_PLATE_REQUIRED ↔
      plate = "") ∧
    (plate ≠ "" → model ≠ "" → (normalizePlate plate).data.length < 5 →
      createVehicle st plate model now iso =
        ⟨.err .INVALID_LICENSE_PLATE
          "Invalid license plate: must be 5–10 alphanumeric characters (A–Z, 0–9)",
          st, 0⟩) := by
  unfold createVehicle
  split_ifs with h1 h2 h3 h4
  · constructor
    · simp [Result.errCode, h1]
    · intro hp
      exact absurd h1 hp
  · constructor
    · simp [Result.errCode, h1]
    · intro _ hm
      exact absurd h2 hm
  · constructor
    · simp [Result.errCode, h1]
    · intro _ _ hlen
      have := isValidPlateNorm_length _ h3
      omega
  · constructor
    · simp [Result.errCode, h1]
    · intro _ _ hlen
      have := isValidPlateNorm_length _ h3
      omega
  · constructor
    · simp [Result.errCode, h1]
    · intro _ _ _
      rfl

/-- Counterexample to C10 as stated: the raw plate `"---"` is non-empty
and normalizes to the empty string, but `createVehicle` with an empty model
returns `MODEL_REQUIRED`, not `INVALID_LICENSE_PLATE`. -/
theorem c10_cex :
    (createVehicle [] "---" "" 0 "t").res.errCode = some .MODEL_REQUIRED ∧
    (createVehicle [] "---" "" 0 "t").res.errCode ≠ some .INVALID_LICENSE_PLATE ∧
    "---" ≠ "" ∧ (normalizePlate "---").data.length < 5 := by decide

/-- Witness for C10: `"--a--"` normalizes to `"A"`, too short, so creation
fails with `INVALID_LICENSE_PLATE`. -/
theorem c10_witness :
    createVehicle [] "--a--" "m" 0 "t" =
      ⟨.err .INVALID_LICENSE_PLATE
        "Invalid license plate: must be 5–10 alphanumeric characters (A–Z, 0–9)",
        [], 0⟩ :=
  (c10_create_error_amended [] "--a--" "m" 0 "t").2 (by decide) (by decide) (by decide)

/-! ### Claim C8 -/

/-- C8 (amended): whenever `createVehicle` succeeds, `listVehicles` on the
resulting store contains exactly one vehicle whose `licensePlate` equals
`normalizePlate rawPlate`, and that vehicle has status `Available`.  (The
amendment restricts the claim to successful creations: when `createVehicle`
fails the property can fail, see the counterexample.) -/
theorem c8_create_list_amended (st : List Vehicle) (plate model : String)
    (now : ℕ) (iso : String) (v : Vehicle)
    (hok : (createVehicle st plate model now iso).res = .ok v) :
    (listVehicles (createVehicle st plate model now iso).vehicles).countP
        (fun w => w.licensePlate == normalizePlate plate) = 1 ∧
    ∀ w ∈ listVehicles (createVehicle st plate model now iso).vehicles,
      w.licensePlate = normalizePlate plate → w.status = .Available := by
  unfold createVehicle at hok ⊢
  split_ifs at hok ⊢ with h1 h2 h3 h4
  simp at hok
  rw [Bool.not_eq_true] at h4
  rw [List.any_eq_false] at h4
  unfold listVehicles
  constructor
  · rw [List.countP_append, List.countP_singleton]
    have hz : st.countP (fun w => w.licensePlate == normalizePlate plate) = 0 :=
      List.countP_eq_zero.2 h4
    simp [hz]
  · intro w hw hplate
    rcases List.mem_append.1 hw with hin | hin
    · exact absurd (by simp [hplate]) (h4 w hin)
    · rcases List.mem_singleton.1 hin with rfl
      rfl

/-- Counterexample to C8 as stated: with the empty raw plate (and a
non-empty model) creation fails, and the listed store contains no vehicle
with the normalized plate, not exactly one. -/
theorem c8_cex :
    "m" ≠ "" ∧
    (listVehicles (createVehicle [] "" "m" 0 "t").vehicles).countP
        (fun w => w.licensePlate == normalizePlate "") ≠ 1 := by decide

/-- Witness for C8 on a successful creation in the empty store. -/
theorem c8_witness :
    (listVehicles (createVehicle [] "AAAAA" "m" 0 "t").vehicles).countP
        (fun w => w.licensePlate == normalizePlate "AAAAA") = 1 ∧
    ∀ w ∈ listVehicles (createVehicle [] "AAAAA" "m" 0 "t").vehicles,
      w.licensePlate = normalizePlate "AAAAA" → w.status = .Available :=
  c8_create_list_amended [] "AAAAA" "m" 0 "t"
    ⟨"v0", "AAAAA", "m", .Available, "t"⟩ (by decide)

/-! ### Claim C9 -/

/-- C9: two successful `createVehicle` calls that observe the same
`Date.now()` value (here `0`) are both assigned the id `"v0"`: the ids of
created vehicles are not pairwise distinct, contradicting the specified
uniqueness of `id` (`id = 'v' + Date.now()` collides within one
millisecond). -/
theorem c9_create_id_collision :
    (createVehicle [] "AAAAA" "m1" 0 "t").res.isOk = true ∧
    (createVehicle (createVehicle [] "AAAAA" "m1" 0 "t").vehicles "BBBBB" "m2" 0 "t").res.isOk
      = true ∧
    (createVehicle [] "AAAAA" "m1" 0 "t").res.okId = some "v0" ∧
    (createVehicle (createVehicle [] "AAAAA" "m1" 0 "t").vehicles "BBBBB" "m2" 0 "t").res.okId
      = some "v0" := by decide

/-! ### Claim C2 -/

/-- C2: every operation that returns an error performs zero persists and
leaves the store unchanged; every successful mutation performs exactly one
persist; and the no-op short-circuit paths (`editVehicleStatus` to the
current status, `editVehicle` to the current normalized plate) return the
found record unchanged with zero persists.  In particular, when the lookup
finds `v`, `editVehicleStatus plate v.status` returns exactly `v` with the
store untouched and no write. -/
theorem c2_persist_write_contract (st : List Vehicle) (plate model newPlate id : String)
    (now : ℕ) (iso : String) (ns : VehicleStatus) :
    ((createVehicle st plate model now iso).res.isOk = false →
      (createVehicle st plate model now iso).writes = 0 ∧
      (createVehicle st plate model now iso).vehicles = st) ∧
    ((createVehicle st plate model now iso).res.isOk = true →
      (createVehicle st plate model now iso).writes = 1) ∧
    ((editVehicleStatus st plate ns).res.isOk = false →
      (editVehicleStatus st plate ns).writes = 0 ∧
      (editVehicleStatus st plate ns).vehicles = st) ∧
    (∀ v, st.find? (fun x => x.licensePlate == normalizePlate plate) = some v →
      (v.status = ns → editVehicleStatus st plate ns = ⟨.ok v, st, 0⟩) ∧
      (v.status ≠ ns → (editVehicleStatus st plate ns).res.isOk = true →
        (editVehicleStatus st plate ns).writes = 1)) ∧
    ((editVehicle st id newPlate).res.isOk = false →
      (editVehicle st id newPlate).writes = 0 ∧
      (editVehicle st id newPlate).vehicles = st) ∧
    (∀ v, st.find? (fun x => x.id == id) = some v →
      (isValidPlateNorm (normalizePlate newPlate) = true →
        normalizePlate newPlate = v.licensePlate →
        editVehicle st id newPlate = ⟨.ok v, st, 0⟩) ∧
      (normalizePlate newPlate ≠ v.licensePlate →
        (editVehicle st id newPlate).res.isOk = true →
        (editVehicle st id newPlate).writes = 1)) ∧
    ((deleteVehicle st id).res.isOk = false →
      (deleteVehicle st id).writes = 0 ∧ (deleteVehicle st id).vehicles = st) ∧
    ((deleteVehicle st id).res.isOk = true → (deleteVehicle st id).writes = 1) := by
  refine ⟨?_, ?_, ?_, ?_, ?_, ?_, ?_, ?_⟩
  · unfold createVehicle
    split_ifs <;> simp [Result.isOk]
  · unfold createVehicle
    split_ifs <;> simp [Result.isOk]
  · unfold editVehicleStatus
    rw [if_neg (not_not_intro (status_mem ns))]
    cases hfind : st.find? (fun v => v.licensePlate == normalizePlate plate) with
    | none => simp [Result.isOk]
    | some v =>
      dsimp only
      split_ifs <;> simp [Result.isOk]
  · intro v hfind
    constructor
    · intro hnoop
      unfold editVehicleStatus
      rw [if_neg (not_not_intro (status_mem ns)), hfind]
      dsimp only
      rw [if_pos hnoop]
    · intro hne
      unfold editVehicleStatus
      rw [if_neg (not_not_intro (status_mem ns)), hfind]
      dsimp only
      rw [if_neg hne]
      split_ifs <;> simp [Result.isOk]
  · unfold editVehicle
    cases hfind : st.find? (fun v => v.id == id) with
    | none => simp [Result.isOk]
    | some v =>
      dsimp only
      split_ifs <;> simp [Result.isOk]
  · intro v hfind
    constructor
    · intro hval hnoop
      unfold editVehicle
      rw [hfind]
      dsimp only
      rw [if_neg (by simp [hval]), if_pos hnoop]
    · intro hne
      unfold editVehicle
      rw [hfind]
      dsimp only
      split_ifs <;> simp_all [Result.isOk]
  · unfold deleteVehicle
    cases hidx : st.findIdx? (fun v => v.id == id) with
    | none => simp [Result.isOk]
    | some i =>
      dsimp only
      cases hget : st[i]? with
      | none => simp [Result.isOk]
      | some v =>
        dsimp only
        split_ifs <;> simp [Result.isOk]
  · unfold deleteVehicle
    cases hidx : st.findIdx? (fun v => v.id == id) with
    | none => simp [Result.isOk]
    | some i =>
      dsimp only
      cases hget : st[i]? with
      | none => simp [Result.isOk]
      | some v =>
        dsimp only
        split_ifs <;> simp [Result.isOk]

/-- Witness for C2: a same-status edit on a one-vehicle store is a no-op
with zero writes returning the identical record. -/
theorem c2_witness :
    editVehicleStatus [⟨"1", "AAAAA", "m", .InUse, "t"⟩] "AAAAA" .InUse =
      ⟨.ok ⟨"1", "AAAAA", "m", .InUse, "t"⟩, [⟨"1", "AAAAA", "m", .InUse, "t"⟩], 0⟩ :=
  (((c2_persist_write_contract [⟨"1", "AAAAA", "m", .InUse, "t"⟩] "AAAAA" "m" "BBBBB" "1"
      0 "t" .InUse).2.2.2.1 ⟨"1", "AAAAA", "m", .InUse, "t"⟩ (by decide)).1) rfl

/-! ### Claim C1 -/

/-- Counterexample to C1 as stated: a 40-vehicle store with 2 vehicles in
`Maintenance` satisfies the bound (cap 2), yet deleting one `Available`
vehicle succeeds and leaves 2 maintenance vehicles in a 39-vehicle fleet
whose cap is 1 — the bound is violated, both for the exact cap
`max(1, ⌊total/20⌋)` and for the code's binary64 cap
`max(1, floorMul005 total)`. -/
theorem c1_cex :
    maintCount (List.replicate 38 (⟨"a", "AAAAA", "m", .Available, "t"⟩ : Vehicle) ++
        ([⟨"m1", "MMMM1", "m", .Maintenance, "t"⟩, ⟨"m2", "MMMM2", "m", .Maintenance, "t"⟩] : List Vehicle)) ≤
      Nat.max 1 ((List.replicate 38 (⟨"a", "AAAAA", "m", .Available, "t"⟩ : Vehicle) ++
        ([⟨"m1", "MMMM1", "m", .Maintenance, "t"⟩,
         ⟨"m2", "MMMM2", "m", .Maintenance, "t"⟩] : List Vehicle)).length / 20) ∧
    (deleteVehicle (List.replicate 38 (⟨"a", "AAAAA", "m", .Available, "t"⟩ : Vehicle) ++
        ([⟨"m1", "MMMM1", "m", .Maintenance, "t"⟩, ⟨"m2", "MMMM2", "m", .Maintenance, "t"⟩] : List Vehicle))
        "a").res.isOk = true ∧
    maintCount ((deleteVehicle (List.replicate 38 (⟨"a", "AAAAA", "m", .Available, "t"⟩ : Vehicle)
        ++ ([⟨"m1", "MMMM1", "m", .Maintenance, "t"⟩, ⟨"m2", "MMMM2", "m", .Maintenance, "t"⟩] : List Vehicle))
        "a").vehicles) >
      Nat.max 1 (((deleteVehicle (List.replicate 38 (⟨"a", "AAAAA", "m", .Available, "t"⟩ : Vehicle)
        ++ ([⟨"m1", "MMMM1", "m", .Maintenance, "t"⟩, ⟨"m2", "MMMM2", "m", .Maintenance, "t"⟩] : List Vehicle))
        "a").vehicles).length / 20) ∧
    maintCount ((deleteVehicle (List.replicate 38 (⟨"a", "AAAAA", "m", .Available, "t"⟩ : Vehicle)
        ++ ([⟨"m1", "MMMM1", "m", .Maintenance, "t"⟩, ⟨"m2", "MMMM2", "m", .Maintenance, "t"⟩] : List Vehicle))
        "a").vehicles) >
      Nat.max 1 (floorMul005
        (((deleteVehicle (List.replicate 38 (⟨"a", "AAAAA", "m", .Available, "t"⟩ : Vehicle)
        ++ ([⟨"m1", "MMMM1", "m", .Maintenance, "t"⟩, ⟨"m2", "MMMM2", "m", .Maintenance, "t"⟩] : List Vehicle))
        "a").vehicles).length)) := by decide

/-- C1 (amended): the bound `maintCount ≤ max(1, ⌊total/20⌋)` is preserved
by `createVehicle`, `editVehicleStatus` and `editVehicle` (for any store of
realistic size, below the `2^32` JavaScript array-length limit).
`deleteVehicle` is excluded: deleting an `Available` vehicle shrinks the
fleet and can lower the cap below the current maintenance count, see the
counterexample. -/
theorem c1_maintenance_bound_amended (st : List Vehicle)
    (hsize : st.length < 2 ^ 32)
    (hinv : maintCount st ≤ Nat.max 1 (st.length / 20)) :
    (∀ plate model now iso,
      maintCount (createVehicle st plate model now iso).vehicles ≤
        Nat.max 1 ((createVehicle st plate model now iso).vehicles.length / 20)) ∧
    (∀ plate ns,
      maintCount (editVehicleStatus st plate ns).vehicles ≤
        Nat.max 1 ((editVehicleStatus st plate ns).vehicles.length / 20)) ∧
    (∀ id newPlate,
      maintCount (editVehicle st id newPlate).vehicles ≤
        Nat.max 1 ((editVehicle st id newPlate).vehicles.length / 20)) := by
  refine ⟨?_, ?_, ?_⟩
  · intro plate model now iso
    unfold createVehicle
    split_ifs
    any_goals exact hinv
    have hmono : st.length / 20 ≤ (st.length + 1) / 20 :=
      Nat.div_le_div_right (Nat.le_succ _)
    have happ : maintCount (st ++
        [⟨"v" ++ toString now, normalizePlate plate, model, .Available, iso⟩]) =
        maintCount st := by
      rw [maintCount_append]
      simp [maintCount]
    dsimp only
    rw [happ]
    simp only [List.length_append, List.length_singleton]
    exact le_trans hinv (max_le_max (le_refl 1) hmono)
  · intro plate ns
    unfold editVehicleStatus
    rw [if_neg (not_not_intro (status_mem ns))]
    cases hfind : st.find? (fun v => v.licensePlate == normalizePlate plate) with
    | none => exact hinv
    | some v =>
      dsimp only
      split_ifs with h1 h2 h3
      · exact hinv
      · exact hinv
      · exact hinv
      · dsimp only
        rw [updateFirst_length]
        by_cases hns : ns = VehicleStatus.Maintenance
        · subst hns
          push_neg at h3
          have hcap := h3 rfl h1
          rw [floorMul005_eq_div20 st.length (by omega)] at hcap
          have hle := countP_updateFirst_le_succ
            (fun w => w.licensePlate == normalizePlate plate)
            (fun w => { w with status := VehicleStatus.Maintenance })
            (fun w => decide (w.status = VehicleStatus.Maintenance)) st
          simp only [← maintCount_eq_countP] at hle
          omega
        · have hle := countP_updateFirst_of_false
            (fun w => w.licensePlate == normalizePlate plate)
            (fun w => { w with status := ns })
            (fun w => decide (w.status = VehicleStatus.Maintenance))
            (fun x => by simp [hns]) st
          simp only [← maintCount_eq_countP] at hle
          omega
  · intro id newPlate
    unfold editVehicle
    cases hfind : st.find? (fun v => v.id == id) with
    | none => exact hinv
    | some v =>
      dsimp only
      split_ifs
      any_goals exact hinv
      dsimp only
      have hc := countP_updateFirst_congr (fun w => w.id == id)
        (fun w => { w with licensePlate := normalizePlate newPlate })
        (fun w => decide (w.status = VehicleStatus.Maintenance)) (fun x => rfl) st
      simp only [← maintCount_eq_countP] at hc
      rw [updateFirst_length, hc]
      exact hinv

/-- Witness for C1 on a one-vehicle store entering `Maintenance`. -/
theorem c1_witness :
    maintCount (editVehicleStatus [⟨"1", "AAAAA", "m", .Available, "t"⟩]
        "AAAAA" .Maintenance).vehicles ≤
      Nat.max 1 ((editVehicleStatus [⟨"1", "AAAAA", "m", .Available, "t"⟩]
        "AAAAA" .Maintenance).vehicles.length / 20) :=
  (c1_maintenance_bound_amended [⟨"1", "AAAAA", "m", .Available, "t"⟩]
    (by decide) (by decide)).2.1 "AAAAA" .Maintenance

/-! ### Claim C5 -/

/-- C5: for a vehicle not currently in `Maintenance` addressed by `plate`,
`editVehicleStatus plate Maintenance` fails with `MAINTENANCE_CAP_EXCEEDED`
exactly when the current maintenance count plus one exceeds
`max(1, ⌊total/20⌋)`; the code's binary64 cap `max(1, floorMul005 total)`
agrees with that exact value on every realistic store size; and on a
20-vehicle all-`Available` fleet the first edit to `Maintenance` succeeds
while the second fails with `MAINTENANCE_CAP_EXCEEDED`. -/
theorem c5_maintenance_cap_iff (st : List Vehicle) (plate : String) (v : Vehicle)
    (hfind : st.find? (fun x => x.licensePlate == normalizePlate plate) = some v)
    (hv : v.status ≠ VehicleStatus.Maintenance) (hsize : st.length ≤ 2 ^ 32) :
    ((editVehicleStatus st plate .Maintenance).res.errCode =
        some .MAINTENANCE_CAP_EXCEEDED ↔
      maintCount st + 1 > Nat.max 1 (st.length / 20)) ∧
    Nat.max 1 (floorMul005 st.length) = Nat.max 1 (st.length / 20) ∧
    (editVehicleStatus fleet20 "PLATE0" .Maintenance).res.isOk = true ∧
    (editVehicleStatus (editVehicleStatus fleet20 "PLATE0" .Maintenance).vehicles
        "PLATE1" .Maintenance).res.errCode = some .MAINTENANCE_CAP_EXCEEDED := by
  have hEq : Nat.max 1 (floorMul005 st.length) = Nat.max 1 (st.length / 20) := by
    rw [floorMul005_eq_div20 st.length hsize]
  refine ⟨?_, hEq, by decide, by decide⟩
  unfold editVehicleStatus
  rw [if_neg (not_not_intro (status_mem .Maintenance)), hfind]
  dsimp only
  rw [if_neg hv, if_neg (by simp [hv])]
  split_ifs with hcap
  · simp only [Result.errCode]
    rw [hEq] at hcap
    simp [hcap.2.2]
  · rw [hEq] at hcap
    simp only [Result.errCode]
    constructor
    · intro h
      cases h
    · intro h
      exact absurd ⟨rfl, hv, h⟩ hcap

/-- Witness for C5: on a one-vehicle store the first transition to
`Maintenance` is within the cap. -/
theorem c5_witness :
    ((editVehicleStatus [⟨"1", "AAAAA", "m", .Available, "t"⟩] "AAAAA"
        .Maintenance).res.errCode = some .MAINTENANCE_CAP_EXCEEDED ↔
      maintCount [⟨"1", "AAAAA", "m", .Available, "t"⟩] + 1 >
        Nat.max 1 (([⟨"1", "AAAAA", "m", .Available, "t"⟩] : List Vehicle).length / 20)) :=
  (c5_maintenance_cap_iff [⟨"1", "AAAAA", "m", .Available, "t"⟩] "AAAAA"
    ⟨"1", "AAAAA", "m", .Available, "t"⟩ (by decide) (by decide) (by decide)).1

/-! ### Claim C3 -/

theorem mem_map_updateFirst {α β : Type} (p : α → Bool) (f : α → α) (g : α → β)
    (l : List α) :
    ∀ b ∈ (updateFirst p f l).map g, b ∈ l.map g ∨ ∃ x ∈ l, b = g (f x) := by
  induction l with
  | nil => simp [updateFirst]
  | cons x xs ih =>
    unfold updateFirst
    split
    · intro b hb
      simp only [List.map_cons, List.mem_cons] at hb
      rcases hb with rfl | hb
      · exact Or.inr ⟨x, by simp, rfl⟩
      · exact Or.inl (by simp [hb])
    · intro b hb
      simp only [List.map_cons, List.mem_cons] at hb
      rcases hb with rfl | hb
      · exact Or.inl (by simp)
      · rcases ih b hb with h | ⟨y, hy, rfl⟩
        · exact Or.inl (by simp [h])
        · exact Or.inr ⟨y, by simp [hy], rfl⟩

theorem updateFirst_plate_invariants (st : List Vehicle) (id nplate : String)
    (hids : (st.map Vehicle.id).Pairwise (· ≠ ·))
    (hplates : (st.map Vehicle.licensePlate).Pairwise (· ≠ ·))
    (hany : st.any (fun w => w.licensePlate == nplate && !(w.id == id)) = false)
    (hfix : normalizePlate nplate = nplate)
    (hnorm : ∀ p ∈ st.map Vehicle.licensePlate, normalizePlate p = p) :
    (∀ p ∈ (updateFirst (fun v => v.id == id)
        (fun v => { v with licensePlate := nplate }) st).map Vehicle.licensePlate,
      normalizePlate p = p) ∧
    ((updateFirst (fun v => v.id == id)
        (fun v => { v with licensePlate := nplate }) st).map
        Vehicle.licensePlate).Pairwise (· ≠ ·) := by
  induction st with
  | nil => simp [updateFirst]
  | cons x xs ih =>
    simp only [List.map_cons, List.pairwise_cons] at hids hplates
    obtain ⟨hidx, hids2⟩ := hids
    obtain ⟨hplx, hplates2⟩ := hplates
    rw [List.any_cons, Bool.or_eq_false_iff] at hany
    obtain ⟨hheadc, htail⟩ := hany
    have hnorm2 : ∀ p ∈ xs.map Vehicle.licensePlate, normalizePlate p = p := by
      intro p hp
      exact hnorm p (by simp [hp])
    unfold updateFirst
    split
    case isTrue hpx =>
      refine ⟨?_, ?_⟩
      · intro p hp
        simp only [List.map_cons, List.mem_cons] at hp
        rcases hp with rfl | hp
        · exact hfix
        · exact hnorm2 _ hp
      · rw [List.map_cons, List.pairwise_cons]
        refine ⟨?_, hplates2⟩
        intro b hb heq
        rcases List.mem_map.1 hb with ⟨w, hw, rfl⟩
        have hw2 := List.any_eq_false.1 htail w hw
        have hx : x.id = id := by simpa using hpx
        have hxw : x.id ≠ w.id := hidx w.id (List.mem_map.2 ⟨w, hw, rfl⟩)
        by_cases hws : w.id = id
        · exact hxw (hx.trans hws.symm)
        · apply hw2
          simp only [Bool.and_eq_true, beq_iff_eq, Bool.not_eq_true', beq_eq_false_iff_ne]
          exact ⟨heq.symm, hws⟩
    case isFalse hpx =>
      obtain ⟨ihn, ihp⟩ := ih hids2 hplates2 htail hnorm2
      refine ⟨?_, ?_⟩
      · intro p hp
        simp only [List.map_cons, List.mem_cons] at hp
        rcases hp with rfl | hp
        · exact hnorm _ (by simp)
        · exact ihn _ hp
      · rw [List.map_cons, List.pairwise_cons]
        refine ⟨?_, ihp⟩
        intro b hb
        rcases mem_map_updateFirst _ _ _ xs b hb with hold | ⟨w, hw, hbw⟩
        · exact hplx b hold
        · intro hcontra
          have hbn : b = nplate := hbw
          have hxid : x.id ≠ id := by simpa using hpx
          rw [Bool.and_eq_false_iff] at hheadc
          rcases hheadc with h | h
          · rw [beq_eq_false_iff_ne] at h
            exact h (hcontra.trans hbn)
          · have hxeq : (x.id == id) = true := by simpa using h
            exact hxid (by simpa using hxeq)

/-- C3 (amended): on a store whose plates are already normalized and
pairwise distinct and whose ids are pairwise distinct, every operation
preserves normalization and pairwise distinctness of the plates; moreover,
after a successful `createVehicle`, a second `createVehicle` whose raw
plate normalizes to the same value (with a non-empty model) fails with
`DUPLICATE_LICENSE_PLATE`, and `editVehicle` fails with
`DUPLICATE_LICENSE_PLATE` when another vehicle (different id) already
holds the normalized new plate.  (The amendment adds the hypotheses that
stored plates are normalized and ids are distinct; without them the
store loaded from JSON can defeat the duplicate checks, see the
counterexample.) -/
theorem c3_plates_unique_amended (st : List Vehicle)
    (hnorm : ∀ p ∈ st.map Vehicle.licensePlate, normalizePlate p = p)
    (hplates : (st.map Vehicle.licensePlate).Pairwise (· ≠ ·))
    (hids : (st.map Vehicle.id).Pairwise (· ≠ ·)) :
    (∀ plate model now iso,
      (∀ p ∈ (createVehicle st plate model now iso).vehicles.map Vehicle.licensePlate,
        normalizePlate p = p) ∧
      ((createVehicle st plate model now iso).vehicles.map
        Vehicle.licensePlate).Pairwise (· ≠ ·)) ∧
    (∀ plate ns,
      (∀ p ∈ (editVehicleStatus st plate ns).vehicles.map Vehicle.licensePlate,
        normalizePlate p = p) ∧
      ((editVehicleStatus st plate ns).vehicles.map
        Vehicle.licensePlate).Pairwise (· ≠ ·)) ∧
    (∀ id newPlate,
      (∀ p ∈ (editVehicle st id newPlate).vehicles.map Vehicle.licensePlate,
        normalizePlate p = p) ∧
      ((editVehicle st id newPlate).vehicles.map
        Vehicle.licensePlate).Pairwise (· ≠ ·)) ∧
    (∀ id,
      (∀ p ∈ (deleteVehicle st id).vehicles.map Vehicle.licensePlate,
        normalizePlate p = p) ∧
      ((deleteVehicle st id).vehicles.map Vehicle.licensePlate).Pairwise (· ≠ ·)) ∧
    (∀ plate1 model1 now1 iso1 plate2 model2 now2 iso2,
      (createVehicle st plate1 model1 now1 iso1).res.isOk = true → model2 ≠ "" →
      normalizePlate plate2 = normalizePlate plate1 →
      (createVehicle (createVehicle st plate1 model1 now1 iso1).vehicles
        plate2 model2 now2 iso2).res.errCode = some .DUPLICATE_LICENSE_PLATE) ∧
    (∀ id newPlate v w, st.find? (fun x => x.id == id) = some v → w ∈ st →
      w.licensePlate = normalizePlate newPlate → w.id ≠ id →
      isValidPlateNorm (normalizePlate newPlate) = true →
      (editVehicle st id newPlate).res.errCode = some .DUPLICATE_LICENSE_PLATE) := by
  refine ⟨?_, ?_, ?_, ?_, ?_, ?_⟩
  · -- createVehicle preserves the invariants
    intro plate model now iso
    unfold createVehicle
    split_ifs with h1 h2 h3 h4
    · exact ⟨hnorm, hplates⟩
    · exact ⟨hnorm, hplates⟩
    · exact ⟨hnorm, hplates⟩
    · rw [Bool.not_eq_true, List.any_eq_false] at h4
      constructor
      · intro p hp
        rw [List.map_append] at hp
        rcases List.mem_append.1 hp with hin | hin
        · exact hnorm p hin
        · simp only [List.map_cons, List.map_nil, List.mem_singleton] at hin
          rw [hin]
          exact normalizePlate_idem plate
      · rw [List.map_append, List.pairwise_append]
        refine ⟨hplates, by simp, ?_⟩
        intro a ha b hb
        simp only [List.map_cons, List.map_nil, List.mem_singleton] at hb
        rcases List.mem_map.1 ha with ⟨w, hw, rfl⟩
        have hne := h4 w hw
        rw [hb]
        intro hcon
        exact hne (by simp [hcon])
    · exact ⟨hnorm, hplates⟩
  · -- editVehicleStatus preserves the invariants
    intro plate ns
    unfold editVehicleStatus
    rw [if_neg (not_not_intro (status_mem ns))]
    cases hfind : st.find? (fun v => v.licensePlate == normalizePlate plate) with
    | none => exact ⟨hnorm, hplates⟩
    | some v =>
      dsimp only
      split_ifs
      · exact ⟨hnorm, hplates⟩
      · exact ⟨hnorm, hplates⟩
      · exact ⟨hnorm, hplates⟩
      · dsimp only
        have hmap := map_updateFirst_eq
          (fun w => w.licensePlate == normalizePlate plate)
          (fun w => { w with status := ns }) Vehicle.licensePlate (fun x => rfl) st
        rw [hmap]
        exact ⟨hnorm, hplates⟩
  · -- editVehicle preserves the invariants
    intro id newPlate
    unfold editVehicle
    cases hfind : st.find? (fun v => v.id == id) with
    | none => exact ⟨hnorm, hplates⟩
    | some v =>
      dsimp only
      split_ifs with hval hnoop hdup
      · exact ⟨hnorm, hplates⟩
      · exact ⟨hnorm, hplates⟩
      · dsimp only
        rw [Bool.not_eq_true] at hdup
        exact updateFirst_plate_invariants st id (normalizePlate newPlate) hids hplates
          hdup (normalizePlate_idem newPlate) hnorm
      · exact ⟨hnorm, hplates⟩
  · -- deleteVehicle preserves the invariants
    intro id
    unfold deleteVehicle
    cases hidx : st.findIdx? (fun v => v.id == id) with
    | none => exact ⟨hnorm, hplates⟩
    | some i =>
      dsimp only
      cases hget : st[i]? with
      | none => exact ⟨hnorm, hplates⟩
      | some v =>
        dsimp only
        split_ifs
        · exact ⟨hnorm, hplates⟩
        · dsimp only
          have hsub := (List.eraseIdx_sublist st i).map Vehicle.licensePlate
          refine ⟨?_, hplates.sublist hsub⟩
          intro p hp
          exact hnorm p (hsub.subset hp)
  · -- a second create with the same normalized plate fails
    intro plate1 model1 now1 iso1 plate2 model2 now2 iso2 hok hm2 heq
    unfold createVehicle at hok
    split_ifs at hok with h1 h2 h3 h4
    · simp [Result.isOk] at hok
    · simp [Result.isOk] at hok
    · simp [Result.isOk] at hok
    · have hval1 : isValidPlateNorm (normalizePlate plate1) = true := h3
      have hp2 : plate2 ≠ "" := by
        intro hcon
        rw [hcon, normalizePlate_empty] at heq
        have hlen5 := isValidPlateNorm_length _ hval1
        rw [← heq] at hlen5
        simp at hlen5
      unfold createVehicle
      rw [if_neg h1, if_neg h2, if_neg (not_not_intro hval1), if_neg h4]
      rw [if_neg hp2, if_neg hm2,
        if_neg (not_not_intro (by rw [heq]; exact hval1)),
        if_pos ?hdupgoal]
      · rfl
      case hdupgoal =>
        dsimp only
        rw [List.any_eq_true]
        refine ⟨⟨"v" ++ toString now1, normalizePlate plate1, model1, .Available, iso1⟩,
          List.mem_append.2 (Or.inr (by simp)), ?_⟩
        rw [heq]
        exact beq_self_eq_true _
    · simp [Result.isOk] at hok
  · -- editVehicle duplicate on another vehicle fails
    intro id newPlate v w hfind hw hwp hwid hval
    have hvmem := List.mem_of_find?_eq_some hfind
    have hvid : v.id = id := by
      have := List.find?_some hfind
      simpa using this
    have hne : normalizePlate newPlate ≠ v.licensePlate := by
      intro hcon
      have hvw : w = v := by
        refine List.inj_on_of_nodup_map hplates hw hvmem ?_
        rw [hwp, hcon]
      rw [hvw] at hwid
      exact hwid hvid
    unfold editVehicle
    rw [hfind]
    dsimp only
    rw [if_neg (by simp [hval]), if_neg hne, if_pos ?anygoal]
    · rfl
    case anygoal =>
      rw [List.any_eq_true]
      refine ⟨w, hw, ?_⟩
      simp only [Bool.and_eq_true, beq_iff_eq, Bool.not_eq_true', beq_eq_false_iff_ne]
      exact ⟨hwp, hwid⟩

/-- Counterexample to C3 as stated: a store holding the raw (non-normalized)
plate `"11-AAA-11"` has pairwise-distinct normalized plates, yet
`createVehicle "11AAA11"` succeeds — the duplicate check compares the raw
stored plate with the normalized new one — and afterwards two vehicles
share the normalized plate `"11AAA11"`. -/
theorem c3_cex :
    (([⟨"1", "11-AAA-11", "m", .Available, "t"⟩] : List Vehicle).map
        (fun v => normalizePlate v.licensePlate)).Pairwise (· ≠ ·) ∧
    (createVehicle [⟨"1", "11-AAA-11", "m", .Available, "t"⟩]
        "11AAA11" "m" 0 "t").res.isOk = true ∧
    ¬ (((createVehicle [⟨"1", "11-AAA-11", "m", .Available, "t"⟩]
        "11AAA11" "m" 0 "t").vehicles.map
        (fun v => normalizePlate v.licensePlate)).Pairwise (· ≠ ·)) := by decide

/-- Witness for C3 on the empty store. -/
theorem c3_witness :
    (∀ p ∈ (createVehicle [] "AAAAA" "m" 0 "t").vehicles.map Vehicle.licensePlate,
      normalizePlate p = p) ∧
    ((createVehicle [] "AAAAA" "m" 0 "t").vehicles.map
      Vehicle.licensePlate).Pairwise (· ≠ ·) :=
  (c3_plates_unique_amended [] (by simp) (by simp) (by simp)).1 "AAAAA" "m" 0 "t"

end VehicleSvc
